import Mathlib

/-!
# Reviewer quiz program (`testing.cpp`): embedding and verified properties

The program keeps a global list of questions, filters it by grade level and
subject, builds a quiz session (one random format for all questions, random
order), scores the answers, and lets an admin append and list questions.

Embedding conventions
* `std::string` is a sequence of `char`; it is embedded as a Lean `String`, whose
  characters stand for the C++ chars one for one (`size`, `substr` and `==`
  are those of the character sequence).
* `int` is embedded as `Int`; the only arithmetic on an `int` is
  `'A' + correctAnswerIndex`, narrowed to `char`, which is taken modulo `2^8`.
* `std::vector<T>` is embedded as `List T`, `push_back` being `++ [x]`.
* The global `allQuestions` is passed explicitly as the store and returned by
  every operation that runs with it.
* Values extracted from `std::cin` and values drawn from the random engines
  are parameters of the operations that consume them.
* `std::cout` is embedded as the list of the chunks written, oldest first.
-/

namespace Lim

/-! ## 1. Data structure -/

/-- The record `struct Question` of `testing.cpp`. -/
structure Question where
  text : String
  choices : List String
  correctAnswerIndex : Int
  subject : String
  gradeLevel : Int
  format : String
  deriving DecidableEq, Repr

/-- The initial value of the global `allQuestions`. -/
def allQuestions : List Question := [
  { text := "What is the square root of 64?", choices := ["6", "8", "16", "32"],
    correctAnswerIndex := 1, subject := "Math", gradeLevel := 7, format := "MCQ" },
  { text := "Who wrote 'Romeo and Juliet'?",
    choices := ["Dickens", "Shakespeare", "Hemingway", "Austen"],
    correctAnswerIndex := 1, subject := "English", gradeLevel := 8, format := "MCQ" },
  { text := "What is the chemical symbol for water?", choices := ["O2", "H2O", "CO2", "HO"],
    correctAnswerIndex := 1, subject := "Science", gradeLevel := 7, format := "MCQ" },
  { text := "The sun is a planet. (True/False)", choices := ["True", "False"],
    correctAnswerIndex := 1, subject := "Science", gradeLevel := 9, format := "TF" },
  { text := "What is the capital of France?", choices := ["London", "Berlin", "Paris", "Rome"],
    correctAnswerIndex := 2, subject := "History", gradeLevel := 10, format := "MCQ" },
  { text := "If x=5, what is 3x + 1?", choices := ["15", "16", "17", "18"],
    correctAnswerIndex := 1, subject := "Math", gradeLevel := 8, format := "MCQ" }
]

/-! ## 2. Client reviewer mode -/

/-- The test of the `if` inside the loop of `filterQuestions`. -/
def matchesFilter (level : Int) (subject : String) (q : Question) : Bool :=
  q.gradeLevel == level && q.subject == subject

/-- The function `filterQuestions`: the range-for over the store, `result`
being the accumulator that `push_back` extends. -/
def filterQuestions (store : List Question) (level : Int) (subject : String) : List Question :=
  store.foldl (fun result q => if matchesFilter level subject q then result ++ [q] else result) []

/-- The value that `std::uniform_int_distribution<>(a, b)` returns when the raw
output of the engine is `g`: a value of the closed range `[a, b]`, each of
which is returned for some `g`. -/
def uniform_int_distribution (a b g : Nat) : Nat :=
  a + g % (b - a + 1)

/-- `std::iter_swap` on two positions of a sequence. -/
def iter_swap (l : List Question) (i j : Nat) : List Question :=
  match l[i]?, l[j]? with
  | some x, some y => (l.set i y).set j x
  | _, _ => l

/-- The loop of `std::shuffle(first, last, g)`:
`for (i = first + 1; i != last; ++i) iter_swap(i, first + D(0, i - first)(g))`.
The first argument counts the iterations left, `rng k` is the raw output of
the `k`-th call of the engine. -/
def shuffleLoop (rng : Nat → Nat) : Nat → Nat → List Question → List Question
  | 0, _, l => l
  | n + 1, i, l =>
      shuffleLoop rng n (i + 1) (iter_swap l i (uniform_int_distribution 0 i (rng (i - 1))))

/-- The library call `std::shuffle(questions.begin(), questions.end(), rng)`. -/
def shuffle (l : List Question) (rng : Nat → Nat) : List Question :=
  shuffleLoop rng (l.length - 1) 1 l

/-- The function `shuffleQuestions`; `rng` is the output stream of the
`default_random_engine` built from the clock seed. -/
def shuffleQuestions (questions : List Question) (rng : Nat → Nat) : List Question :=
  shuffle questions rng

/-- The value of `optionChar` after `k` increments from `'A'`, and the value of
`char correctLetter = 'A' + k`. -/
def letterFrom (k : Int) : Char :=
  Char.ofNat ((65 + k) % 256).toNat

/-- The range-for of `showQuestion` that prints the lettered choices. -/
def showChoices : Nat → List String → List String
  | _, [] => []
  | k, choice :: rest =>
      (String.singleton (letterFrom k) ++ ") " ++ choice ++ "\n") :: showChoices (k + 1) rest

/-- The function `showQuestion`: the chunks it writes to `cout`. -/
def showQuestion (q : Question) (questionNumber : Nat) : List String :=
  ["\n--- Question " ++ toString questionNumber ++ " (" ++ q.subject ++ " - G"
      ++ toString q.gradeLevel ++ ") --- \n",
   q.text ++ "\n"] ++
  (if q.format = "MCQ" then showChoices 0 q.choices
   else if q.format = "TF" then ["Options: T/F \n"]
   else [])

/-- The function `::toupper` in the "C" locale (the program never sets another
one), on one `char`: the letters `a`..`z` go to `A`..`Z`, every other char is
returned as it is. -/
def toupper (c : Char) : Char :=
  if 97 ≤ c.toNat ∧ c.toNat ≤ 122 then Char.ofNat (c.toNat - 32) else c

/-- The call `transform(userAnswer.begin(), userAnswer.end(), userAnswer.begin(), ::toupper)`. -/
def transformToupper (userAnswer : String) : String :=
  ⟨userAnswer.data.map toupper⟩

/-- The value of `correctAnswer` computed in the quiz loop (lines 156-163). -/
def correctAnswerOf (chosenFormat : String) (q : Question) : String :=
  let correctLetter : Char := letterFrom q.correctAnswerIndex
  let correctAnswer : String := "".push correctLetter
  if chosenFormat = "TF" then
    (if q.correctAnswerIndex = 1 then "F" else "T")
  else correctAnswer

/-- The console and score while the quiz loop runs. -/
structure QuizState where
  out : List String
  answers : List String
  answersRead : Nat
  score : Int
  deriving DecidableEq, Repr

/-- The token that `cin >> userAnswer` stores: the next token, or the empty
string of the fresh `userAnswer` when the stream has nothing left. -/
def extractToken (answers : List String) : String × List String :=
  match answers with
  | [] => ("", [])
  | a :: rest => (a, rest)

/-- One iteration of the quiz loop (lines 150-173) on question `q` at index `i`. -/
def quizIteration (chosenFormat : String) (q : Question) (i : Nat) (st : QuizState) : QuizState :=
  let out := st.out ++ showQuestion q (i + 1) ++ ["Your Answer: "]
  let (userAnswer, answers) := extractToken st.answers
  let correctAnswer := correctAnswerOf chosenFormat q
  let userAnswer := transformToupper userAnswer
  if userAnswer = correctAnswer then
    { out := out ++ ["Correct!\n"], answers := answers,
      answersRead := st.answersRead + 1, score := st.score + 1 }
  else
    { out := out ++ ["Incorrect. The correct answer was " ++ correctAnswer ++ ".\n"],
      answers := answers, answersRead := st.answersRead + 1, score := st.score }

/-- The quiz loop `for (size_t i = 0; i < totalQuestions; ++i)`, entered at
index `i` with the questions from `i` on. -/
def quizLoop (chosenFormat : String) : List Question → Nat → QuizState → QuizState
  | [], _, st => st
  | q :: rest, i, st => quizLoop chosenFormat rest (i + 1) (quizIteration chosenFormat q i st)

/-- The local `formats` of `clientReviewerMode`. -/
def formats : List String := ["MCQ", "TF"]

/-- The value `formats[distrib(gen)]`, `rd` being the raw output of `gen`. -/
def chooseFormat (rd : Nat) : String :=
  formats.get ⟨uniform_int_distribution 0 (formats.length - 1) rd,
    by simp only [uniform_int_distribution, formats, List.length]; omega⟩

/-- The range-for `for (auto& q : quizQuestions) q.format = chosenFormat;`. -/
def overwriteFormat (chosenFormat : String) (quizQuestions : List Question) : List Question :=
  quizQuestions.map (fun q => { q with format := chosenFormat })

/-- Step 2 of `clientReviewerMode` (lines 131-143): the chosen format and the
session questions after the overwrite and the shuffle. -/
def buildSession (quizQuestions : List Question) (rd : Nat) (rng : Nat → Nat) :
    String × List Question :=
  let chosenFormat := chooseFormat rd
  (chosenFormat, shuffleQuestions (overwriteFormat chosenFormat quizQuestions) rng)

/-- What one run of `clientReviewerMode` extracts from `cin` and draws from its
random engines. -/
structure ClientInput where
  level : Int
  subject : String
  rd : Nat
  rng : Nat → Nat
  answers : List String

/-- The observable result of one run of `clientReviewerMode`. -/
structure ClientRun where
  allQuestions : List Question
  quizQuestions : List Question
  out : List String
  answers : List String
  answersRead : Nat
  score : Int

/-- The function `clientReviewerMode`, run on the store `store`. -/
def clientReviewerMode (store : List Question) (inp : ClientInput) : ClientRun :=
  let out := ["\n\n--- Client Reviewer Start ---\n", "Enter Grade Level (7-10): ",
    "Enter Subject (e.g., Math, Science, English, History): "]
  let quizQuestions := filterQuestions store inp.level inp.subject
  if quizQuestions.isEmpty then
    { allQuestions := store, quizQuestions := quizQuestions,
      out := out ++ ["No questions found for Grade " ++ toString inp.level ++ " in "
        ++ inp.subject ++ ".\n"],
      answers := inp.answers, answersRead := 0, score := 0 }
  else
    let (chosenFormat, quizQuestions) := buildSession quizQuestions inp.rd inp.rng
    let out := out ++ ["\n[PLOT TWIST]: This session's question format is **" ++ chosenFormat
      ++ "**.\n"]
    let totalQuestions := quizQuestions.length
    let st := quizLoop chosenFormat quizQuestions 0
      { out := out, answers := inp.answers, answersRead := 0, score := 0 }
    { allQuestions := store, quizQuestions := quizQuestions,
      out := st.out ++ ["\n--- Quiz Finished ---\n",
        "You scored " ++ toString st.score ++ " out of " ++ toString totalQuestions ++ ".\n"],
      answers := st.answers, answersRead := st.answersRead, score := st.score }

/-! ## 3. Admin mode and the main menu -/

/-- The member call `s.substr(pos, n)` for `pos` within the string. -/
def substr (s : String) (pos n : Nat) : String :=
  ⟨(s.data.drop pos).take n⟩

/-- The line that the view loop of `adminMode` writes for index `i` (lines 234-236). -/
def viewEntry (i : Nat) (q : Question) : String :=
  "[" ++ toString i ++ "] G" ++ toString q.gradeLevel ++ " | " ++ q.subject ++ " | "
    ++ substr q.text 0 30 ++ "...\n"

/-- The view loop `for (size_t i = 0; i < allQuestions.size(); ++i)`, entered at
index `i` with the questions from `i` on. -/
def viewLoop : Nat → List Question → List String
  | _, [] => []
  | i, q :: rest => viewEntry i q :: viewLoop (i + 1) rest

/-- What one run of `adminMode` extracts from `cin`: the menu choice and, for
the add branch, the values stored into the fields of `newQ`. -/
structure AdminInput where
  adminChoice : Int
  text : String
  gradeLevel : Int
  subject : String
  format : String
  choiceA : String
  choiceB : String
  choiceC : String
  choiceD : String
  correctAnswerIndex : Int

/-- The local `newQ` of the add branch once all its fields are read. -/
def newQuestion (inp : AdminInput) : Question :=
  { text := inp.text, choices := [inp.choiceA, inp.choiceB, inp.choiceC, inp.choiceD],
    correctAnswerIndex := inp.correctAnswerIndex, subject := inp.subject,
    gradeLevel := inp.gradeLevel, format := inp.format }

/-- The observable result of one run of `adminMode` up to its final call of
`main`; `callsMain` tells whether that call is reached. -/
structure AdminRun where
  allQuestions : List Question
  out : List String
  callsMain : Bool

/-- The menu that `adminMode` prints first. -/
def adminMenu : List String :=
  ["\n\n--- Admin Mode (Basic CRUD) ---\n", "1. Add New Question\n", "2. View All Questions\n",
   "3. Back to Main Menu\n", "Enter choice: "]

/-- The prompts of the add branch of `adminMode`. -/
def addPrompts : List String :=
  ["Enter Question Text: ", "Enter Grade Level (7-10): ", "Enter Subject: ",
   "Enter Format (MCQ/TF): ",
   "Enter Choice " ++ String.singleton (letterFrom 0) ++ ": ",
   "Enter Choice " ++ String.singleton (letterFrom 1) ++ ": ",
   "Enter Choice " ++ String.singleton (letterFrom 2) ++ ": ",
   "Enter Choice " ++ String.singleton (letterFrom 3) ++ ": ",
   "Enter Correct Answer Index (0=A, 1=B, 2=C, 3=D): "]

/-- The function `adminMode`, run on the store `store`, up to its call of `main`. -/
def adminMode (store : List Question) (inp : AdminInput) : AdminRun :=
  if inp.adminChoice = 1 then
    { allQuestions := store ++ [newQuestion inp],
      out := adminMenu ++ addPrompts ++ ["\nQuestion added successfully!\n"],
      callsMain := true }
  else if inp.adminChoice = 2 then
    let out := adminMenu ++ ["\n--- Current Questions in Database ---\n"]
    if store.isEmpty then
      { allQuestions := store, out := out ++ ["Database is empty.\n"], callsMain := false }
    else
      { allQuestions := store, out := out ++ viewLoop 0 store, callsMain := true }
  else
    { allQuestions := store, out := adminMenu, callsMain := true }

/-- What one activation of `main` finds on `cin`: its own choice and the input
of the mode it dispatches to. -/
structure MenuInput where
  choice : Int
  client : ClientInput
  admin : AdminInput

/-- The menu that `main` prints first. -/
def mainMenu : List String :=
  ["--- Reviewer Program Main Menu ---\n", "1. Client Reviewer Mode\n", "2. Admin CRUD Mode\n",
   "3. Exit\n", "Enter choice: "]

/-- One activation of `main`, up to the nested call of `main` made by
`adminMode`; the result tells whether that call is reached. -/
def mainOnce (store : List Question) (inp : MenuInput) : AdminRun :=
  if inp.choice = 1 then
    let r := clientReviewerMode store inp.client
    { allQuestions := r.allQuestions, out := mainMenu ++ r.out, callsMain := false }
  else if inp.choice = 2 then
    let r := adminMode store inp.admin
    { allQuestions := r.allQuestions, out := mainMenu ++ r.out, callsMain := r.callsMain }
  else
    { allQuestions := store, out := mainMenu ++ ["Exiting program. Goodbye!\n"],
      callsMain := false }

/-- The final store and the whole output of a run of the program. -/
structure ProgramRun where
  allQuestions : List Question
  out : List String

/-- The function `main` with the recursion through `adminMode`: the list holds
the input of the successive activations; when it runs out `cin >> choice`
fails, `choice` is 0 and the program exits. -/
def main : List Question → List MenuInput → ProgramRun
  | store, [] => { allQuestions := store, out := mainMenu ++ ["Exiting program. Goodbye!\n"] }
  | store, inp :: rest =>
      let r := mainOnce store inp
      if r.callsMain then
        let r2 := main r.allQuestions rest
        { allQuestions := r2.allQuestions, out := r.out ++ r2.out }
      else
        { allQuestions := r.allQuestions, out := r.out }

/-- The stores with which `main` is activated in some run from process start. -/
inductive Reachable : List Question → Prop
  | start : Reachable allQuestions
  | reenter (store : List Question) (inp : MenuInput) :
      Reachable store → (mainOnce store inp).callsMain = true →
      Reachable (mainOnce store inp).allQuestions

/-! ## Notions used to state the properties -/

/-- Stated from the specification (QuizRunner, "compute expected answer"): the
letter `'A' + correctAnswerIndex` as a one-letter string for MCQ; `"F"` when
`correctAnswerIndex` is 1 and `"T"` otherwise for TF. -/
def specExpectedAnswer (f : String) (q : Question) : String :=
  if f = "MCQ" then String.singleton (Char.ofNat ((65 + q.correctAnswerIndex) % 256).toNat)
  else if q.correctAnswerIndex = 1 then "F" else "T"

/-- Two chars that are equal, or the upper-case and the lower-case form of one
of the letters `A`..`Z`. -/
def sameLetter (c d : Char) : Prop :=
  c = d ∨ (65 ≤ c.toNat ∧ c.toNat ≤ 90 ∧ d.toNat = c.toNat + 32)
    ∨ (65 ≤ d.toNat ∧ d.toNat ≤ 90 ∧ c.toNat = d.toNat + 32)

instance (c d : Char) : Decidable (sameLetter c d) := by
  unfold sameLetter
  infer_instance

/-- Two strings that differ at most in the case of their letters. -/
def differOnlyInCase (a b : String) : Prop :=
  a.data.length = b.data.length ∧ ∀ p ∈ a.data.zip b.data, sameLetter p.1 p.2

instance (a b : String) : Decidable (differOnlyInCase a b) := by
  unfold differOnlyInCase
  infer_instance

/-! ## 4. Properties of the filter -/

theorem filter_foldl_acc (level : Int) (subject : String) (store acc : List Question) :
    store.foldl (fun result q => if matchesFilter level subject q then result ++ [q] else result)
      acc = acc ++ store.filter (matchesFilter level subject) := by
  induction store generalizing acc with
  | nil => simp
  | cons q rest ih =>
    by_cases hq : matchesFilter level subject q = true
    · simp [List.foldl_cons, List.filter_cons, hq, ih]
    · simp [List.foldl_cons, List.filter_cons, hq, ih]

theorem filterQuestions_eq_filter (store : List Question) (level : Int) (subject : String) :
    filterQuestions store level subject = store.filter (matchesFilter level subject) := by
  simp [filterQuestions, filter_foldl_acc]

theorem matchesFilter_iff (level : Int) (subject : String) (q : Question) :
    matchesFilter level subject q = true ↔ q.gradeLevel = level ∧ q.subject = subject := by
  simp [matchesFilter]

/-- C1: `filterQuestions(L, S)` is the store with the questions whose grade
level is not `L` or whose subject is not `S` removed: it is a subsequence of
the store (same relative order), a question belongs to it exactly when it is
in the store with `gradeLevel = L` and `subject = S`, each such question occurs
in it as often as in the store, and any other question does not occur. -/
theorem filterQuestions_exact (store : List Question) (L : Int) (S : String) :
    filterQuestions store L S
        = store.filter (fun q => decide (q.gradeLevel = L ∧ q.subject = S))
      ∧ (filterQuestions store L S).Sublist store
      ∧ (∀ q, q ∈ filterQuestions store L S ↔ q ∈ store ∧ q.gradeLevel = L ∧ q.subject = S)
      ∧ (∀ q, (filterQuestions store L S).count q
          = if q.gradeLevel = L ∧ q.subject = S then store.count q else 0) := by
  have hfun : matchesFilter L S = fun q => decide (q.gradeLevel = L ∧ q.subject = S) := by
    funext q
    by_cases h1 : q.gradeLevel = L <;> by_cases h2 : q.subject = S <;> simp [matchesFilter, h1, h2]
  refine ⟨?_, ?_, ?_, ?_⟩
  · rw [filterQuestions_eq_filter, hfun]
  · rw [filterQuestions_eq_filter]
    exact List.filter_sublist store
  · intro q
    rw [filterQuestions_eq_filter, List.mem_filter, matchesFilter_iff]
  · intro q
    rw [filterQuestions_eq_filter]
    by_cases hq : q.gradeLevel = L ∧ q.subject = S
    · rw [if_pos hq]
      exact List.count_filter ((matchesFilter_iff L S q).mpr hq)
    · rw [if_neg hq]
      refine List.count_eq_zero.mpr (fun hmem => hq ?_)
      exact (matchesFilter_iff L S q).mp (List.mem_filter.mp hmem).2

/-! ## 5. Properties of the shuffle -/

theorem iter_swap_perm (l : List Question) (i j : Nat) : (iter_swap l i j).Perm l := by
  unfold iter_swap
  split
  · rename_i x y hx hy
    obtain ⟨hi, hxi⟩ := List.getElem?_eq_some.mp hx
    obtain ⟨hj, hyj⟩ := List.getElem?_eq_some.mp hy
    rw [List.perm_iff_count]
    intro b
    have hj2 : j < (l.set i y).length := by simpa using hj
    have hget : (l.set i y)[j] = y := by
      rw [List.getElem_set]
      split
      · rfl
      · exact hyj
    rw [List.count_set x b _ j hj2, List.count_set y b l i hi, hget, hxi]
    have hpos : (if (x == b) = true then 1 else 0) ≤ List.count b l := by
      split
      · rename_i hxb
        have hmem : x ∈ l := hxi ▸ List.getElem_mem hi
        have : b ∈ l := by
          have hb : x = b := by simpa using hxb
          exact hb ▸ hmem
        exact List.count_pos_iff.mpr this
      · exact Nat.zero_le _
    omega
  · exact List.Perm.refl l

theorem shuffleLoop_perm (rng : Nat → Nat) (n i : Nat) (l : List Question) :
    (shuffleLoop rng n i l).Perm l := by
  induction n generalizing i l with
  | zero => exact List.Perm.refl l
  | succ n ih =>
    exact (ih (i + 1) _).trans (iter_swap_perm l i _)

/-- C3: for every input sequence and every output stream of the random
engine, `shuffleQuestions` leaves a permutation of its input: the result has
the length of the input and every question occurs in it exactly as often as in
the input. -/
theorem shuffleQuestions_permutation (questions : List Question) (rng : Nat → Nat) :
    (shuffleQuestions questions rng).Perm questions
      ∧ (shuffleQuestions questions rng).length = questions.length
      ∧ (∀ q, (shuffleQuestions questions rng).count q = questions.count q) := by
  have hperm : (shuffleQuestions questions rng).Perm questions :=
    shuffleLoop_perm rng _ 1 questions
  exact ⟨hperm, hperm.length_eq, fun q => hperm.count_eq q⟩

/-! ## 6. Properties of the scoring -/

theorem toupper_sameLetter (c d : Char) (h : sameLetter c d) : toupper c = toupper d := by
  rcases h with h | ⟨h1, h2, h3⟩ | ⟨h1, h2, h3⟩
  · rw [h]
  · have hc : toupper c = c := by
      unfold toupper
      rw [if_neg (by omega)]
    have hd : toupper d = c := by
      unfold toupper
      rw [if_pos (by omega), h3, Nat.add_sub_cancel, Char.ofNat_toNat]
    rw [hc, hd]
  · have hd : toupper d = d := by
      unfold toupper
      rw [if_neg (by omega)]
    have hc : toupper c = d := by
      unfold toupper
      rw [if_pos (by omega), h3, Nat.add_sub_cancel, Char.ofNat_toNat]
    rw [hc, hd]

theorem map_toupper_eq (a b : List Char) (hlen : a.length = b.length)
    (h : ∀ p ∈ a.zip b, sameLetter p.1 p.2) : a.map toupper = b.map toupper := by
  induction a generalizing b with
  | nil =>
    cases b with
    | nil => rfl
    | cons d b => simp at hlen
  | cons c a ih =>
    cases b with
    | nil => simp at hlen
    | cons d b =>
      simp only [List.map_cons, List.cons.injEq]
      refine ⟨toupper_sameLetter c d (h (c, d) (by simp)), ih b (by simpa using hlen) ?_⟩
      intro p hp
      exact h p (by simp [hp])

theorem transformToupper_differOnlyInCase (a b : String) (h : differOnlyInCase a b) :
    transformToupper a = transformToupper b := by
  unfold transformToupper
  rw [map_toupper_eq a.data b.data h.1 h.2]

theorem correctAnswerOf_eq_spec (f : String) (hf : f = "MCQ" ∨ f = "TF") (q : Question) :
    correctAnswerOf f q = specExpectedAnswer f q := by
  rcases hf with hf | hf
  · subst hf
    simp [correctAnswerOf, specExpectedAnswer, letterFrom, String.singleton]
  · subst hf
    simp [correctAnswerOf, specExpectedAnswer]

theorem quizIteration_score (f : String) (q : Question) (i : Nat) (out : List String)
    (a : String) (rest : List String) (n : Nat) (score : Int) :
    (quizIteration f q i { out := out, answers := a :: rest, answersRead := n, score := score }).score
      = if transformToupper a = correctAnswerOf f q then score + 1 else score := by
  unfold quizIteration extractToken
  by_cases h : transformToupper a = correctAnswerOf f q
  · simp [h]
  · simp [h]

/-- C2: for every question `q`, session format `f` in {"MCQ","TF"} and answer
token `a` read in an iteration of the quiz loop, the expected answer computed
by the loop is the one of the specification, the score goes up by one exactly
when the upper-cased `a` equals it and stays as it is otherwise, and an answer
`b` that differs from `a` only in letter case is scored as `a` is. -/
theorem quiz_scoring (q : Question) (f : String) (hf : f = "MCQ" ∨ f = "TF") (a : String)
    (rest : List String) (i : Nat) (st : QuizState) :
    correctAnswerOf f q = specExpectedAnswer f q
      ∧ ((quizIteration f q i { st with answers := a :: rest }).score = st.score + 1
          ↔ transformToupper a = specExpectedAnswer f q)
      ∧ ((quizIteration f q i { st with answers := a :: rest }).score = st.score
          ↔ transformToupper a ≠ specExpectedAnswer f q)
      ∧ (∀ b, differOnlyInCase a b →
          (quizIteration f q i { st with answers := b :: rest }).score
            = (quizIteration f q i { st with answers := a :: rest }).score) := by
  have hspec := correctAnswerOf_eq_spec f hf q
  refine ⟨hspec, ?_, ?_, ?_⟩
  · rw [quizIteration_score, hspec]
    by_cases h : transformToupper a = specExpectedAnswer f q
    · simp [h]
    · simp [h]
  · rw [quizIteration_score, hspec]
    by_cases h : transformToupper a = specExpectedAnswer f q
    · simp [h]
    · simp [h]
  · intro b hb
    rw [quizIteration_score, quizIteration_score, transformToupper_differOnlyInCase a b hb]

/-- The scoring property at a concrete input: the square-root question under
MCQ, where the answers "b" and "B" differ only in case and score alike. -/
theorem quiz_scoring_witness :
    differOnlyInCase "b" "B"
      ∧ (quizIteration "MCQ"
          { text := "What is the square root of 64?", choices := ["6", "8", "16", "32"],
            correctAnswerIndex := 1, subject := "Math", gradeLevel := 7, format := "MCQ" } 0
          { out := [], answers := "B" :: [], answersRead := 0, score := 0 }).score
        = (quizIteration "MCQ"
          { text := "What is the square root of 64?", choices := ["6", "8", "16", "32"],
            correctAnswerIndex := 1, subject := "Math", gradeLevel := 7, format := "MCQ" } 0
          { out := [], answers := "b" :: [], answersRead := 0, score := 0 }).score :=
  ⟨by decide,
   (quiz_scoring
      { text := "What is the square root of 64?", choices := ["6", "8", "16", "32"],
        correctAnswerIndex := 1, subject := "Math", gradeLevel := 7, format := "MCQ" }
      "MCQ" (Or.inl rfl) "b" [] 0
      { out := [], answers := [], answersRead := 0, score := 0 }).2.2.2 "B" (by decide)⟩

theorem clientReviewerMode_single (store : List Question) (inp : ClientInput) (q : Question)
    (hq : filterQuestions store inp.level inp.subject = [q]) :
    (clientReviewerMode store inp).score
      = (quizIteration (chooseFormat inp.rd) { q with format := chooseFormat inp.rd } 0
          { out := ["\n\n--- Client Reviewer Start ---\n", "Enter Grade Level (7-10): ",
              "Enter Subject (e.g., Math, Science, English, History): ",
              "\n[PLOT TWIST]: This session's question format is **" ++ chooseFormat inp.rd
                ++ "**.\n"],
            answers := inp.answers, answersRead := 0, score := 0 }).score := by
  simp [clientReviewerMode, hq, buildSession, overwriteFormat, shuffleQuestions, shuffle,
    shuffleLoop, quizLoop]

/-- C5: on the initial store `filterQuestions(7, "Math")` is one question, with
text "What is the square root of 64?" and `correctAnswerIndex` 1; in an MCQ
session an iteration of the quiz loop on it adds 1 to the score for the answer
"b" and for the answer "B" and leaves the score as it is for the answer "a";
the whole run of `clientReviewerMode` for grade 7, Math with MCQ drawn ends
with score 1 for "b", 1 for "B" and 0 for "a". -/
theorem grade7_math_example (rd : Nat) (hrd : chooseFormat rd = "MCQ") (rng : Nat → Nat) :
    (∃ q, filterQuestions allQuestions 7 "Math" = [q]
        ∧ q.text = "What is the square root of 64?" ∧ q.correctAnswerIndex = 1
        ∧ ∀ (i : Nat) (st : QuizState) (rest : List String),
            (quizIteration "MCQ" q i { st with answers := "b" :: rest }).score = st.score + 1
            ∧ (quizIteration "MCQ" q i { st with answers := "B" :: rest }).score = st.score + 1
            ∧ (quizIteration "MCQ" q i { st with answers := "a" :: rest }).score = st.score)
      ∧ (clientReviewerMode allQuestions
          { level := 7, subject := "Math", rd := rd, rng := rng, answers := ["b"] }).score = 1
      ∧ (clientReviewerMode allQuestions
          { level := 7, subject := "Math", rd := rd, rng := rng, answers := ["B"] }).score = 1
      ∧ (clientReviewerMode allQuestions
          { level := 7, subject := "Math", rd := rd, rng := rng, answers := ["a"] }).score = 0 := by
  have hfilter : filterQuestions allQuestions 7 "Math" =
      [{ text := "What is the square root of 64?", choices := ["6", "8", "16", "32"],
         correctAnswerIndex := 1, subject := "Math", gradeLevel := 7, format := "MCQ" }] := by
    decide
  refine ⟨⟨_, hfilter, rfl, rfl, ?_⟩, ?_, ?_, ?_⟩
  · intro i st rest
    refine ⟨?_, ?_, ?_⟩
    · rw [quizIteration_score, if_pos (by decide)]
    · rw [quizIteration_score, if_pos (by decide)]
    · rw [quizIteration_score, if_neg (by decide)]
  · rw [clientReviewerMode_single _ _ _ hfilter]
    simp only [hrd]
    rw [quizIteration_score, if_pos (by decide)]
    rfl
  · rw [clientReviewerMode_single _ _ _ hfilter]
    simp only [hrd]
    rw [quizIteration_score, if_pos (by decide)]
    rfl
  · rw [clientReviewerMode_single _ _ _ hfilter]
    simp only [hrd]
    rw [quizIteration_score, if_neg (by decide)]

/-- The grade 7 Math run at a concrete draw: the raw draw 0 selects MCQ. -/
theorem grade7_math_example_witness :
    chooseFormat 0 = "MCQ"
      ∧ (clientReviewerMode allQuestions
          { level := 7, subject := "Math", rd := 0, rng := fun _ => 0, answers := ["b"] }).score
        = 1 :=
  ⟨by decide, (grade7_math_example 0 (by decide) (fun _ => 0)).2.1⟩

/-- C6: the question of the initial store with text "The sun is a planet.
(True/False)" has `correctAnswerIndex` 1; in a TF session the expected answer
computed for it is "F", an iteration of the quiz loop on it adds 1 to the score
for the answer "f" and for the answer "F" and leaves the score as it is for the
answer "t". -/
theorem sun_planet_example (q : Question) (hq : q ∈ allQuestions)
    (htext : q.text = "The sun is a planet. (True/False)") :
    q.correctAnswerIndex = 1
      ∧ correctAnswerOf "TF" q = "F"
      ∧ ∀ (i : Nat) (st : QuizState) (rest : List String),
          (quizIteration "TF" q i { st with answers := "f" :: rest }).score = st.score + 1
          ∧ (quizIteration "TF" q i { st with answers := "F" :: rest }).score = st.score + 1
          ∧ (quizIteration "TF" q i { st with answers := "t" :: rest }).score = st.score := by
  have hidx : q.correctAnswerIndex = 1 := by
    simp only [allQuestions, List.mem_cons, List.mem_singleton, List.not_mem_nil, or_false] at hq
    rcases hq with h | h | h | h | h | h
    all_goals first
      | (subst h; rfl)
      | (subst h; exact absurd htext (by decide))
  have hexp : correctAnswerOf "TF" q = "F" := by
    simp [correctAnswerOf, hidx]
  refine ⟨hidx, hexp, ?_⟩
  intro i st rest
  refine ⟨?_, ?_, ?_⟩
  · rw [quizIteration_score, hexp, if_pos (by decide)]
  · rw [quizIteration_score, hexp, if_pos (by decide)]
  · rw [quizIteration_score, hexp, if_neg (by decide)]

/-- The true/false example at the fourth question of the initial store, and the
whole grade 9 Science run with TF drawn. -/
theorem sun_planet_example_witness :
    (∃ q ∈ allQuestions, q.text = "The sun is a planet. (True/False)"
        ∧ q.correctAnswerIndex = 1 ∧ correctAnswerOf "TF" q = "F")
      ∧ (clientReviewerMode allQuestions
          { level := 9, subject := "Science", rd := 1, rng := fun _ => 0, answers := ["f"] }).score
        = 1 :=
  ⟨⟨{ text := "The sun is a planet. (True/False)", choices := ["True", "False"],
      correctAnswerIndex := 1, subject := "Science", gradeLevel := 9, format := "TF" },
    by decide, rfl,
    (sun_planet_example _ (by decide) rfl).1, (sun_planet_example _ (by decide) rfl).2.1⟩,
   by decide⟩

/-! ## 7. Properties of the session building step -/

theorem chooseFormat_eq (rd : Nat) : chooseFormat rd = if rd % 2 = 0 then "MCQ" else "TF" := by
  have hidx : uniform_int_distribution 0 (formats.length - 1) rd = rd % 2 := by
    simp [uniform_int_distribution, formats]
  unfold chooseFormat
  rw [List.get_eq_getElem]
  simp only [hidx]
  rcases Nat.mod_two_eq_zero_or_one rd with h | h
  · simp [h, formats]
  · simp [h, formats]

theorem chooseFormat_cases (rd : Nat) : chooseFormat rd = "MCQ" ∨ chooseFormat rd = "TF" := by
  rw [chooseFormat_eq]
  by_cases h : rd % 2 = 0
  · exact Or.inl (if_pos h)
  · exact Or.inr (if_neg h)

/-- C4: for every non-empty filtered set and all random draws, the
session-building step yields a format that is "MCQ" or "TF" and a non-empty
session of the same length, every question of which carries that format
whatever format it was authored with: the session is a permutation of the
filtered set with each `format` overwritten. These are the session questions
of `clientReviewerMode` when the filter result is that set. -/
theorem session_format_uniform (quizQuestions : List Question) (hne : quizQuestions ≠ [])
    (rd : Nat) (rng : Nat → Nat) :
    ((buildSession quizQuestions rd rng).1 = "MCQ" ∨ (buildSession quizQuestions rd rng).1 = "TF")
      ∧ (∀ q ∈ (buildSession quizQuestions rd rng).2,
          q.format = (buildSession quizQuestions rd rng).1)
      ∧ (buildSession quizQuestions rd rng).2.length = quizQuestions.length
      ∧ (buildSession quizQuestions rd rng).2 ≠ []
      ∧ (buildSession quizQuestions rd rng).2.Perm (quizQuestions.map
          (fun q => { q with format := (buildSession quizQuestions rd rng).1 }))
      ∧ (∀ (store : List Question) (inp : ClientInput),
          filterQuestions store inp.level inp.subject = quizQuestions →
          inp.rd = rd → inp.rng = rng →
          (clientReviewerMode store inp).quizQuestions = (buildSession quizQuestions rd rng).2) := by
  have hperm : (buildSession quizQuestions rd rng).2.Perm
      (overwriteFormat (chooseFormat rd) quizQuestions) :=
    shuffleLoop_perm rng _ 1 _
  have hlen : (buildSession quizQuestions rd rng).2.length = quizQuestions.length := by
    rw [hperm.length_eq, overwriteFormat, List.length_map]
  refine ⟨chooseFormat_cases rd, ?_, hlen, ?_, hperm, ?_⟩
  · intro q hq
    have hmem : q ∈ overwriteFormat (chooseFormat rd) quizQuestions := hperm.mem_iff.mp hq
    obtain ⟨q0, _, rfl⟩ := List.mem_map.mp hmem
    rfl
  · intro hnil
    rw [hnil] at hlen
    exact hne (List.length_eq_zero.mp hlen.symm)
  · intro store inp hfilter hrd hrng
    subst hrd hrng
    have hempty : quizQuestions.isEmpty = false := by
      cases quizQuestions with
      | nil => exact absurd rfl hne
      | cons q rest => rfl
    simp [clientReviewerMode, hfilter, hempty]

/-- The session property at a concrete input: the grade 8 Math session of the initial store. -/
theorem session_format_uniform_witness :
    filterQuestions allQuestions 8 "Math" ≠ []
      ∧ (∀ q ∈ (buildSession (filterQuestions allQuestions 8 "Math") 1 (fun _ => 0)).2,
          q.format = (buildSession (filterQuestions allQuestions 8 "Math") 1 (fun _ => 0)).1) :=
  ⟨by decide,
   (session_format_uniform (filterQuestions allQuestions 8 "Math") (by decide) 1 (fun _ => 0)).2.1⟩

/-! ## 8. The empty filter result -/

/-- C8: when no stored question has grade level `L` and subject `S`,
`filterQuestions(L, S)` is empty and `clientReviewerMode` writes its three
prompts and the line "No questions found for Grade L in S." and nothing else:
no question is shown, no answer token is read, the session is empty and the
store is as before. -/
theorem no_match_reported (store : List Question) (inp : ClientInput)
    (hnone : ∀ q ∈ store, ¬ (q.gradeLevel = inp.level ∧ q.subject = inp.subject)) :
    filterQuestions store inp.level inp.subject = []
      ∧ (clientReviewerMode store inp).out
          = ["\n\n--- Client Reviewer Start ---\n", "Enter Grade Level (7-10): ",
             "Enter Subject (e.g., Math, Science, English, History): ",
             "No questions found for Grade " ++ toString inp.level ++ " in " ++ inp.subject
               ++ ".\n"]
      ∧ (clientReviewerMode store inp).answersRead = 0
      ∧ (clientReviewerMode store inp).answers = inp.answers
      ∧ (clientReviewerMode store inp).quizQuestions = []
      ∧ (clientReviewerMode store inp).score = 0
      ∧ (clientReviewerMode store inp).allQuestions = store := by
  have hfilter : filterQuestions store inp.level inp.subject = [] := by
    rw [filterQuestions_eq_filter, List.filter_eq_nil_iff]
    intro q hq hm
    exact hnone q hq ((matchesFilter_iff _ _ q).mp hm)
  refine ⟨hfilter, ?_, ?_, ?_, ?_, ?_, ?_⟩ <;> simp [clientReviewerMode, hfilter]

/-- The empty-result property at a concrete input: grade 7 History on the initial store. -/
theorem no_match_reported_witness :
    (∀ q ∈ allQuestions, ¬ (q.gradeLevel = 7 ∧ q.subject = "History"))
      ∧ filterQuestions allQuestions 7 "History" = []
      ∧ (clientReviewerMode allQuestions
          { level := 7, subject := "History", rd := 0, rng := fun _ => 0,
            answers := ["a", "b"] }).answersRead = 0 :=
  ⟨by decide,
   (no_match_reported allQuestions
      { level := 7, subject := "History", rd := 0, rng := fun _ => 0, answers := ["a", "b"] }
      (by decide)).1,
   (no_match_reported allQuestions
      { level := 7, subject := "History", rd := 0, rng := fun _ => 0, answers := ["a", "b"] }
      (by decide)).2.2.1⟩

/-! ## 9. Admin add and view -/

theorem viewLoop_length (store : List Question) (k : Nat) :
    (viewLoop k store).length = store.length := by
  induction store generalizing k with
  | nil => rfl
  | cons q rest ih => simp [viewLoop, ih]

theorem viewLoop_getElem? (store : List Question) (k i : Nat) :
    (viewLoop k store)[i]? = store[i]?.map (viewEntry (k + i)) := by
  induction store generalizing k i with
  | nil => simp [viewLoop]
  | cons q rest ih =>
    cases i with
    | zero => simp [viewLoop]
    | succ i =>
      simp only [viewLoop, List.getElem?_cons_succ, ih]
      rw [show k + 1 + i = k + (i + 1) by omega]

/-- C7: after the add branch of `adminMode` has appended the new question to a
store, the view branch writes the admin menu, the heading and one line per
stored question in store order; the line at the index equal to the previous
size of the store shows that index, the grade level and the subject that were
entered and the first 30 characters of the entered text followed by "...",
the whole text when it has at most 30 characters. -/
theorem add_then_view (store : List Question) (add view : AdminInput)
    (hadd : add.adminChoice = 1) (hview : view.adminChoice = 2) :
    (adminMode store add).allQuestions = store ++ [newQuestion add]
      ∧ (adminMode (store ++ [newQuestion add]) view).out
          = adminMenu ++ ["\n--- Current Questions in Database ---\n"]
              ++ viewLoop 0 (store ++ [newQuestion add])
      ∧ (viewLoop 0 (store ++ [newQuestion add])).length = store.length + 1
      ∧ (∀ (i : Nat) (q : Question), (store ++ [newQuestion add])[i]? = some q →
          (viewLoop 0 (store ++ [newQuestion add]))[i]? = some (viewEntry i q))
      ∧ (viewLoop 0 (store ++ [newQuestion add]))[store.length]?
          = some ("[" ++ toString store.length ++ "] G" ++ toString add.gradeLevel ++ " | "
              ++ add.subject ++ " | " ++ String.mk (add.text.data.take 30) ++ "...\n")
      ∧ (add.text.length ≤ 30 → String.mk (add.text.data.take 30) = add.text) := by
  refine ⟨?_, ?_, ?_, ?_, ?_, ?_⟩
  · simp [adminMode, hadd]
  · simp [adminMode, hview]
  · simp [viewLoop_length]
  · intro i q hq
    rw [viewLoop_getElem?, hq, Nat.zero_add]
    rfl
  · rw [viewLoop_getElem?, Nat.zero_add]
    simp [viewEntry, substr, newQuestion]
  · intro h
    exact List.take_of_length_le h |> congrArg String.mk

/-- The add-then-view property at a concrete input: a question with a 35-character text added to
the initial store is listed at index 6 with its text cut after 30 characters. -/
theorem add_then_view_witness :
    (viewLoop 0 (allQuestions ++ [newQuestion
        { adminChoice := 1, text := "Name the largest planet of our sun.", gradeLevel := 9,
          subject := "Science", format := "MCQ", choiceA := "Mars", choiceB := "Jupiter",
          choiceC := "Venus", choiceD := "Earth", correctAnswerIndex := 1 }]))[allQuestions.length]?
      = some ("[" ++ toString allQuestions.length ++ "] G" ++ toString (9 : Int) ++ " | "
          ++ "Science" ++ " | " ++ String.mk ("Name the largest planet of our sun.".data.take 30)
          ++ "...\n") :=
  (add_then_view allQuestions
    { adminChoice := 1, text := "Name the largest planet of our sun.", gradeLevel := 9,
      subject := "Science", format := "MCQ", choiceA := "Mars", choiceB := "Jupiter",
      choiceC := "Venus", choiceD := "Earth", correctAnswerIndex := 1 }
    { adminChoice := 2, text := "", gradeLevel := 0, subject := "", format := "",
      choiceA := "", choiceB := "", choiceC := "", choiceD := "", correctAnswerIndex := 0 }
    rfl rfl).2.2.2.2.1

/-! ## 10. The initial store and the data model -/

/-- C9, as stated, fails: the fourth question of the initial store, "The sun
is a planet. (True/False)", holds 2 choices, not 4. -/
theorem initial_store_not_all_four_choices :
    ¬ (∀ q ∈ allQuestions, q.choices.length = 4
        ∧ 0 ≤ q.correctAnswerIndex ∧ q.correctAnswerIndex ≤ 3
        ∧ q.correctAnswerIndex < q.choices.length
        ∧ (q.format = "MCQ" ∨ q.format = "TF")) := by
  decide

/-- C9, amended: every question of the initial store has format "MCQ" or "TF"
and a `correctAnswerIndex` in [0,3] that is a valid index into its choices; its
choices are exactly 4 strings when its format is "MCQ" and the 2 strings
"True", "False" when its format is "TF". -/
theorem initial_store_conforms (q : Question) (hq : q ∈ allQuestions) :
    (q.format = "MCQ" ∨ q.format = "TF")
      ∧ 0 ≤ q.correctAnswerIndex ∧ q.correctAnswerIndex ≤ 3
      ∧ q.correctAnswerIndex < q.choices.length
      ∧ (q.format = "MCQ" → q.choices.length = 4)
      ∧ (q.format = "TF" → q.choices = ["True", "False"]) := by
  have hall : ∀ q ∈ allQuestions, (q.format = "MCQ" ∨ q.format = "TF")
      ∧ 0 ≤ q.correctAnswerIndex ∧ q.correctAnswerIndex ≤ 3
      ∧ q.correctAnswerIndex < q.choices.length
      ∧ (q.format = "MCQ" → q.choices.length = 4)
      ∧ (q.format = "TF" → q.choices = ["True", "False"]) := by
    decide
  exact hall q hq

/-- The data-model property at the true/false question of the initial store. -/
theorem initial_store_conforms_witness :
    ({ text := "The sun is a planet. (True/False)", choices := ["True", "False"],
       correctAnswerIndex := 1, subject := "Science", gradeLevel := 9, format := "TF" }
        : Question) ∈ allQuestions
      ∧ (("TF" : String) = "TF" → (["True", "False"] : List String) = ["True", "False"]) :=
  ⟨by decide,
   (initial_store_conforms
      { text := "The sun is a planet. (True/False)", choices := ["True", "False"],
        correctAnswerIndex := 1, subject := "Science", gradeLevel := 9, format := "TF" }
      (by decide)).2.2.2.2.2⟩

/-! ## 11. The store over the life of the process -/

theorem clientReviewerMode_store (store : List Question) (inp : ClientInput) :
    (clientReviewerMode store inp).allQuestions = store := by
  simp only [clientReviewerMode]
  split <;> rfl

theorem adminMode_store (store : List Question) (inp : AdminInput) :
    (adminMode store inp).allQuestions
      = if inp.adminChoice = 1 then store ++ [newQuestion inp] else store := by
  unfold adminMode
  split
  · rfl
  · split
    · split <;> rfl
    · rfl

theorem mainOnce_store (store : List Question) (inp : MenuInput) :
    (mainOnce store inp).allQuestions
      = if inp.choice = 2 ∧ inp.admin.adminChoice = 1 then store ++ [newQuestion inp.admin]
        else store := by
  unfold mainOnce
  by_cases h1 : inp.choice = 1
  · have h2 : ¬ (inp.choice = 2 ∧ inp.admin.adminChoice = 1) := by
      rintro ⟨h, _⟩
      rw [h1] at h
      exact absurd h (by decide)
    rw [if_pos h1, if_neg h2]
    exact clientReviewerMode_store store inp.client
  · rw [if_neg h1]
    by_cases h2 : inp.choice = 2
    · rw [if_pos h2]
      simp only [adminMode_store, h2, true_and]
    · rw [if_neg h2, if_neg (fun h => h2 h.1)]

theorem mainOnce_extends (store : List Question) (inp : MenuInput) :
    store <+: (mainOnce store inp).allQuestions := by
  rw [mainOnce_store]
  split
  · exact List.prefix_append store _
  · exact List.prefix_refl store

theorem main_extends (inputs : List MenuInput) (store : List Question) :
    store <+: (main store inputs).allQuestions := by
  induction inputs generalizing store with
  | nil => exact List.prefix_refl store
  | cons inp rest ih =>
    unfold main
    by_cases hc : (mainOnce store inp).callsMain = true
    · simp only [hc, if_true]
      exact (mainOnce_extends store inp).trans (ih _)
    · simp only [hc]
      exact mainOnce_extends store inp

theorem reachable_extends (store : List Question) (h : Reachable store) :
    allQuestions <+: store := by
  induction h with
  | start => exact List.prefix_refl _
  | reenter s inp _ _ ih => exact ih.trans (mainOnce_extends s inp)

/-- C10: in every store with which `main` is activated in a run from process
start, the six initial questions are a prefix and the store is not empty. From
such a store a quiz session, an admin view and every other menu choice leave
the store as it is, an admin add makes it the old store with the new question
appended, `adminMode` always goes on to its call of `main` (the "Database is
empty" return is not taken) and the view branch lists the store; whatever
input follows, the store at the end of the run has this store as a prefix. -/
theorem store_append_only (store : List Question) (h : Reachable store) :
    allQuestions <+: store
      ∧ store ≠ []
      ∧ (∀ c : ClientInput, (clientReviewerMode store c).allQuestions = store)
      ∧ (∀ a : AdminInput, a.adminChoice = 1 →
          (adminMode store a).allQuestions = store ++ [newQuestion a]
            ∧ (adminMode store a).allQuestions.length = store.length + 1)
      ∧ (∀ a : AdminInput, a.adminChoice ≠ 1 → (adminMode store a).allQuestions = store)
      ∧ (∀ a : AdminInput, (adminMode store a).callsMain = true)
      ∧ (∀ a : AdminInput, a.adminChoice = 2 →
          (adminMode store a).out
            = adminMenu ++ ["\n--- Current Questions in Database ---\n"] ++ viewLoop 0 store)
      ∧ (∀ inp : MenuInput,
          (mainOnce store inp).allQuestions
            = if inp.choice = 2 ∧ inp.admin.adminChoice = 1
              then store ++ [newQuestion inp.admin] else store)
      ∧ (∀ inputs : List MenuInput, store <+: (main store inputs).allQuestions) := by
  have hpre := reachable_extends store h
  have hne : store ≠ [] := by
    intro hnil
    rw [hnil] at hpre
    exact absurd (List.prefix_nil.mp hpre) (by decide)
  have hempty : store.isEmpty = false := by
    cases store with
    | nil => exact absurd rfl hne
    | cons q rest => rfl
  refine ⟨hpre, hne, clientReviewerMode_store store, ?_, ?_, ?_, ?_, mainOnce_store store,
    fun inputs => main_extends inputs store⟩
  · intro a ha
    have hs : (adminMode store a).allQuestions = store ++ [newQuestion a] := by
      rw [adminMode_store, if_pos ha]
    exact ⟨hs, by rw [hs]; simp⟩
  · intro a ha
    rw [adminMode_store, if_neg ha]
  · intro a
    unfold adminMode
    split
    · rfl
    · split
      · simp [hempty]
      · rfl
  · intro a ha
    simp [adminMode, ha, hempty]

/-- The store property at a concrete state: the store after one admin add from process start. -/
theorem store_append_only_witness :
    Reachable (allQuestions ++ [newQuestion
        { adminChoice := 1, text := "Name the largest planet of our sun.", gradeLevel := 9,
          subject := "Science", format := "MCQ", choiceA := "Mars", choiceB := "Jupiter",
          choiceC := "Venus", choiceD := "Earth", correctAnswerIndex := 1 }])
      ∧ allQuestions <+: (allQuestions ++ [newQuestion
        { adminChoice := 1, text := "Name the largest planet of our sun.", gradeLevel := 9,
          subject := "Science", format := "MCQ", choiceA := "Mars", choiceB := "Jupiter",
          choiceC := "Venus", choiceD := "Earth", correctAnswerIndex := 1 }]) :=
  have hreach : Reachable (allQuestions ++ [newQuestion
        { adminChoice := 1, text := "Name the largest planet of our sun.", gradeLevel := 9,
          subject := "Science", format := "MCQ", choiceA := "Mars", choiceB := "Jupiter",
          choiceC := "Venus", choiceD := "Earth", correctAnswerIndex := 1 }]) :=
    Reachable.reenter allQuestions
      { choice := 2,
        client := { level := 0, subject := "", rd := 0, rng := fun _ => 0, answers := [] },
        admin := { adminChoice := 1, text := "Name the largest planet of our sun.",
                   gradeLevel := 9, subject := "Science", format := "MCQ", choiceA := "Mars",
                   choiceB := "Jupiter", choiceC := "Venus", choiceD := "Earth",
                   correctAnswerIndex := 1 } }
      Reachable.start rfl
  ⟨hreach, (store_append_only _ hreach).1⟩

end Lim
